import Mathlib

/-!
Verification of the restic-reporter collection orchestrator.

This file gives a shallow embedding of the program's core data model and
operations (src/snapshot_info.go, src/restic_backend.go,
src/restic_collector.go, src/main.go, and the config loader), and proves or
refutes the specification claims about them.

Time model: Go `time.Time` values are embedded as integer nanoseconds on an
idealized timeline whose origin 0 is the Go zero value `time.Time{}`
(0001-01-01 UTC); `t1.Before(t2)` is `t1 < t2`. Durations are integer
nanoseconds. Float arithmetic in `Duration.Hours` and the final `int(...)`
conversion of `DayAge` are computed exactly over the rationals, with
truncation toward zero.
-/

namespace ResticReporter

def nanosPerHour : Int := 3600 * 1000000000

def nanosPerDay : Int := 24 * nanosPerHour

/-- Truncation toward zero of a rational number, the behaviour of Go's
`int(f)` conversion from a float. -/
def ratTrunc (q : ℚ) : Int := q.num.tdiv (q.den : Int)

/-- Record aggregated per backup set, `snapshotInfo` in src/snapshot_info.go:
host, username, latest snapshot time, snapshot count. -/
structure snapshotInfo where
  host : String
  username : String
  time : Int
  count : Nat
deriving DecidableEq, Repr

/-- `snapshotInfo.DayAge` from src/snapshot_info.go:
`int(now.Sub(i.Time).Hours() / 24)`. `Duration.Hours` divides the
nanosecond difference by 3600e9; the result is divided by 24 and converted
to `int`, truncating toward zero. -/
def snapshotInfo.DayAge (i : snapshotInfo) (now : Int) : Int :=
  ratTrunc (((now - i.time : Int) : ℚ) / (nanosPerHour : ℚ) / 24)

/-- `snapshotInfo.IsLegacy` from src/snapshot_info.go: a set is legacy when
its day age exceeds 60; the source evaluates it at `time.Now()`, passed here
as `now`. -/
def snapshotInfo.IsLegacy (i : snapshotInfo) (now : Int) : Bool :=
  60 < i.DayAge now

/-- `SnapshotCollection` from src/snapshot_info.go: a Go map from string key
to `*snapshotInfo`, embedded as an association list with no duplicate keys
(lookup returns the first match, store replaces it in place or appends). -/
abbrev SnapshotCollection := List (String × snapshotInfo)

/-- Go map read `c[key]` on the association-list embedding. -/
def scFind : SnapshotCollection → String → Option snapshotInfo
  | [], _ => none
  | (k, v) :: rest, key => if k = key then some v else scFind rest key

/-- Go map write `c[key] = val` on the association-list embedding. -/
def scStore : SnapshotCollection → String → snapshotInfo → SnapshotCollection
  | [], key, v => [(key, v)]
  | (k, w) :: rest, key, v =>
    if k = key then (key, v) :: rest else (k, w) :: scStore rest key v

/-- The empty-username normalization at the top of `Add`: an empty username
becomes the sentinel "UNKNOWN". -/
def normUser (username : String) : String :=
  if username = "" then "UNKNOWN" else username

/-- The map key built by `Add`: `fmt.Sprintf("%s-%s", hostname, username)`. -/
def addKey (hostname username : String) : String :=
  hostname ++ "-" ++ username

/-- `SnapshotCollection.Add` from src/snapshot_info.go: normalize the
username, build the joined key, look up or create the record, raise its time
to the new snapshot time if later, and increment its count. -/
def SnapshotCollection.Add (c : SnapshotCollection) (username hostname : String)
    (snapshotTime : Int) : SnapshotCollection :=
  let uname := normUser username
  let key := addKey hostname uname
  let val : snapshotInfo :=
    match scFind c key with
    | none => { host := hostname, username := uname, time := 0, count := 0 }
    | some v => v
  scStore c key
    { val with
      time := if val.time < snapshotTime then snapshotTime else val.time,
      count := val.count + 1 }

/-- A sequence of `Add` calls sharing one (username, hostname) pair, applied
in order to a collection: the test subject of the per-key aggregation
claims. -/
def addAll (username hostname : String) (ts : List Int) (c : SnapshotCollection) :
    SnapshotCollection :=
  ts.foldl (fun c t => SnapshotCollection.Add c username hostname t) c

/-- The per-record update a single `Add` call performs once the record
exists: raise the time if the new snapshot is later, increment the count. -/
def updInfo (v : snapshotInfo) (t : Int) : snapshotInfo :=
  { v with time := if v.time < t then t else v.time, count := v.count + 1 }

/-- Outcomes of the fallible steps inside `openResticBackend`
(src/restic_backend.go), in source order: location parse, transport setup,
factory lookup, backend open, config-file stat, zero-size check, repository
construction, key search, and the final `repository.Lock` call. -/
structure BackendEnv where
  parseFails : Bool
  transportFails : Bool
  factoryMissing : Bool
  openFails : Bool
  statFails : Bool
  sizeIsZero : Bool
  repoNewFails : Bool
  searchKeyFails : Bool
  lockFails : Bool
deriving DecidableEq, Repr

/-- `openResticBackend` from src/restic_backend.go. `none` is an error
return. The source discards the error of the final `repository.Lock` call
(the function unconditionally ends in `return repo, lock, ctx, nil`), so a
failing lock step still produces a no-error return; the payload records
whether a lock was actually acquired (the returned lock is non-nil). -/
def openResticBackend (env : BackendEnv) : Option Bool :=
  if env.parseFails then none
  else if env.transportFails then none
  else if env.factoryMissing then none
  else if env.openFails then none
  else if env.statFails then none
  else if env.sizeIsZero then none
  else if env.repoNewFails then none
  else if env.searchKeyFails then none
  else some (!env.lockFails)

/-- `repoStats` from src/restic_collector.go: one repository's result. -/
structure repoStats where
  name : String
  readErrors : Nat
  stats : SnapshotCollection
deriving DecidableEq, Repr

/-- One snapshot summary yielded during enumeration: the fields of
`restic.Snapshot` that `collectionFromAllSnapshots` reads. -/
structure SnapshotSummary where
  username : String
  hostname : String
  time : Int
deriving DecidableEq, Repr

/-- `collectionFromAllSnapshots` from src/restic_backend.go: fold `Add` over
every enumerated snapshot; a read error during `ForAllSnapshots` surfaces as
an error return (the partially built collection is then discarded by the
caller). -/
def collectionFromAllSnapshots (snaps : List SnapshotSummary) (readFails : Bool) :
    Option SnapshotCollection :=
  if readFails then none
  else some (snaps.foldl
    (fun c sn => SnapshotCollection.Add c sn.username sn.hostname sn.time) [])

/-- Observable events of one `gatherOne` task, in execution order: sending
the result on the `done` channel, calling `lock.Unlock()`, and the deferred
`wait.Done()` on the drain WaitGroup. -/
inductive TaskEvent where
  | sendResult (r : repoStats)
  | unlockRepo
  | waitDone
deriving DecidableEq, Repr

/-- The environment of one repository task: how the backend open behaves,
what the enumeration yields, and whether the enumeration fails mid-read. -/
structure TaskBehavior where
  env : BackendEnv
  snaps : List SnapshotSummary
  readFails : Bool
deriving Repr

/-- Event trace of `ResticCollector.gatherOne` (src/restic_collector.go).
Deferred calls run in reverse registration order after the explicit body:
`wait.Done()` is registered first and runs last; `lock.Unlock()` is
registered after a successful open and therefore runs after the send on
`done` but before `wait.Done()`. On an open error no unlock is ever
registered. -/
def gatherOne (name : String) (b : TaskBehavior) : List TaskEvent :=
  match openResticBackend b.env with
  | none => [.sendResult ⟨name, 1, []⟩, .waitDone]
  | some _ =>
    match collectionFromAllSnapshots b.snaps b.readFails with
    | none => [.sendResult ⟨name, 1, []⟩, .unlockRepo, .waitDone]
    | some col => [.sendResult ⟨name, 0, col⟩, .unlockRepo, .waitDone]

/-- The single `repoStats` value a `gatherOne` task sends on `done`. -/
def sentResult (name : String) (b : TaskBehavior) : repoStats :=
  match openResticBackend b.env with
  | none => ⟨name, 1, []⟩
  | some _ =>
    match collectionFromAllSnapshots b.snaps b.readFails with
    | none => ⟨name, 1, []⟩
    | some col => ⟨name, 0, col⟩

def isUnlock : TaskEvent → Bool
  | .unlockRepo => true
  | _ => false

/-- Number of `lock.Unlock()` calls in a task trace. -/
def countUnlock (tr : List TaskEvent) : Nat := (tr.filter isUnlock).length

/-- `configEntry` from the configuration loader. -/
structure configEntry where
  disabled : Bool
  repo : String
  password : String
  vaultMaterial : String
  b2VaultMaterial : String
  b2AccountId : String
  b2Key : String
deriving DecidableEq, Repr

abbrev ConfigFile := List configEntry

/-- `allRepoMetrics` from src/restic_collector.go: one published run. -/
structure allRepoMetrics where
  time : Int
  errors : Nat
  stats : List repoStats
deriving DecidableEq, Repr

/-- The mutable collector state behind `ResticCollector`
(src/restic_collector.go): the two atomic pointers, both nil at
construction, and the run mutex. The drain WaitGroup is captured by task
traces instead. -/
structure CollectorState where
  config : Option ConfigFile
  metrics : Option allRepoMetrics
  locked : Bool
deriving DecidableEq, Repr

/-- `NewResticCollector` (src/restic_collector.go): both atomic pointers
start nil, the mutex starts unlocked. -/
def NewResticCollector : CollectorState :=
  { config := none, metrics := none, locked := false }

/-- The entries `GatherMetrics` spawns a task for: every non-disabled
configuration entry. -/
def enabledEntries (cfg : ConfigFile) : List configEntry :=
  cfg.filter (fun e => !e.disabled)

/-- Number of results with a read error, as accumulated by the fan-in loop
(`metrics.Errors`). -/
def countErrors (rs : List repoStats) : Nat :=
  (rs.filter (fun r => r.readErrors > 0)).length

/-- The fan-in receive loop of `GatherMetrics`: receive a result, append it,
bump the error count, and publish once the received count equals the started
count. The first argument of the recursion is the sequence of results that
will ever arrive on the channel; when it is exhausted the loop blocks
forever on the channel receive, which the embedding renders as `none`.
Note the started-count comparison happens only after a receive, so with zero
started tasks the loop still blocks. -/
def gatherLoop (started : Nat) : List repoStats → List repoStats → Nat →
    Option (List repoStats × Nat)
  | [], _, _ => none
  | r :: rest, acc, errs =>
    let acc' := acc ++ [r]
    let errs' := if r.readErrors > 0 then errs + 1 else errs
    if acc'.length = started then some (acc', errs')
    else gatherLoop started rest acc' errs'

/-- How one `GatherMetrics` invocation ends. -/
inductive GatherResult where
  | busy
  | nilConfigCrash
  | blockedForever (stuck : CollectorState)
  | completed (final : CollectorState)
deriving DecidableEq, Repr

/-- One `GatherMetrics` invocation together with how many times it executed
`c.metrics.Store` and `c.config.Load`. -/
structure GatherOutcome where
  result : GatherResult
  publishes : Nat
  configLoads : Nat
deriving DecidableEq, Repr

/-- `ResticCollector.GatherMetrics` (src/restic_collector.go). `TryLock`
failure returns immediately (no config read, no publish). Otherwise the
config snapshot is loaded once (dereferencing a nil pointer if no config was
ever stored), one task is spawned per enabled entry, and the fan-in loop
runs. `arrivals` is the sequence of task results delivered on the `done`
channel, in arrival order. If the loop never sees enough results the
invocation blocks forever with the mutex still held and nothing published;
on completion it stores one new `allRepoMetrics` and the deferred `Unlock`
releases the mutex. -/
def GatherMetrics (s : CollectorState) (arrivals : List repoStats) (now : Int) :
    GatherOutcome :=
  if s.locked then ⟨.busy, 0, 0⟩
  else
    match s.config with
    | none => ⟨.nilConfigCrash, 0, 1⟩
    | some cfg =>
      let started := (enabledEntries cfg).length
      match gatherLoop started arrivals [] 0 with
      | none => ⟨.blockedForever { s with locked := true }, 0, 1⟩
      | some (stats, errs) =>
        ⟨.completed { s with metrics := some ⟨now, errs, stats⟩, locked := false }, 1, 1⟩

/-- The external behaviour `NewConfigFileFromFile` depends on: whether the
file opens, what the JSON decoder yields (`none` is a decode error), and the
secret resolver's answers for password material and for B2 material
(account id and key). -/
structure LoadEnv where
  openFails : Bool
  decodeResult : Option ConfigFile
  apiKeySecrets : String → Option String
  b2Secrets : String → Option (String × String)

/-- The per-entry secret-resolution step of `NewConfigFileFromFile`: fill the
password from Vault when empty and material is named, then the B2 pair
likewise; a failed lookup fails the whole load. -/
def resolveEntry (env : LoadEnv) (e : configEntry) : Option configEntry :=
  let step1 : Option configEntry :=
    if e.password = "" ∧ e.vaultMaterial ≠ "" then
      match env.apiKeySecrets e.vaultMaterial with
      | none => none
      | some k => some { e with password := k }
    else some e
  match step1 with
  | none => none
  | some e1 =>
    if e1.b2Key = "" ∧ e1.b2VaultMaterial ≠ "" then
      match env.b2Secrets e1.b2VaultMaterial with
      | none => none
      | some kv => some { e1 with b2AccountId := kv.1, b2Key := kv.2 }
    else some e1

/-- `NewConfigFileFromFile` from the configuration loader: open the file,
decode the JSON array, and, when a secrets client is present, resolve
secrets entry by entry; any failure makes the whole load fail (`none`). -/
def NewConfigFileFromFile (env : LoadEnv) (hasSecretsClient : Bool) :
    Option ConfigFile :=
  if env.openFails then none
  else
    match env.decodeResult with
    | none => none
    | some out =>
      if !hasSecretsClient then some out
      else out.mapM (resolveEntry env)

/-- `ResticCollector.ReloadConfig` (src/restic_collector.go): load the file;
on error return it without touching the stored pointer; on success store the
whole new list. The Bool result is true when an error was returned. -/
def ReloadConfig (s : CollectorState) (env : LoadEnv) (hasSecretsClient : Bool) :
    CollectorState × Bool :=
  match NewConfigFileFromFile env hasSecretsClient with
  | none => (s, true)
  | some cfg => ({ s with config := some cfg }, false)

/-- One exposition sample: descriptor name, exact gauge value, label
values. -/
structure MetricSample where
  desc : String
  value : ℚ
  labels : List String
deriving DecidableEq, Repr

/-- Seconds from the Go zero time (0001-01-01) to the Unix epoch, the
`unixToInternal` constant of Go's time package. -/
def unixToInternalNanos : Int := 62135596800 * 1000000000

/-- `t.UnixNano()` for a timeline value with origin at the Go zero time. -/
def unixNanos (t : Int) : Int := t - unixToInternalNanos

/-- `t.Unix()`: whole seconds since the epoch, floor of the nanosecond
value (Go stores seconds plus a nanosecond remainder in [0, 1e9)). -/
def unixSeconds (t : Int) : Int := (unixNanos t).fdiv 1000000000

/-- The legacy label value Collect attaches: "true" when `IsLegacy`. -/
def legacyLabel (set : snapshotInfo) (now : Int) : String :=
  if set.IsLegacy now then "true" else "false"

/-- The three per-set samples Collect emits: snapshot count and newest
timestamp carry the legacy label, the day age does not. -/
def setSamples (now : Int) (repoName : String) (set : snapshotInfo) :
    List MetricSample :=
  [⟨"backup_snapshot_count", (set.count : ℚ),
      [repoName, set.host, set.username, legacyLabel set now]⟩,
   ⟨"backup_newest_timestamp", (unixSeconds set.time : ℚ),
      [repoName, set.host, set.username, legacyLabel set now]⟩,
   ⟨"backup_days_age", (set.DayAge now : ℚ),
      [repoName, set.host, set.username]⟩]

/-- The samples Collect emits for one repository's stats. -/
def repoSamples (now : Int) (rs : repoStats) : List MetricSample :=
  ⟨"backup_read_error_count", (rs.readErrors : ℚ), [rs.name]⟩ ::
    rs.stats.foldr (fun kv acc => setSamples now rs.name kv.2 ++ acc) []

/-- The full sample list for one published run: job success time (UnixNano
over 1e9, computed exactly), job error count, then the per-repository
samples. -/
def collectSamples (m : allRepoMetrics) (now : Int) : List MetricSample :=
  ⟨"backup_job_last_success_unixtime", (unixNanos m.time : ℚ) / 1000000000, []⟩ ::
  ⟨"backup_job_error_count", (m.errors : ℚ), []⟩ ::
  m.stats.foldr (fun rs acc => repoSamples now rs ++ acc) []

/-- `ResticCollector.Collect` (src/restic_collector.go): load the published
run pointer once and read everything from that one value. When no run was
ever published the pointer is nil and the immediate `metrics.Time` access
dereferences nil, rendered as `none`. The returned state is the state after
the call: Collect performs no store. -/
def Collect (s : CollectorState) (now : Int) :
    Option (CollectorState × List MetricSample) :=
  match s.metrics with
  | none => none
  | some m => some (s, collectSamples m now)

/-- The startup actions of `main` (src/main.go), in program order: load the
configuration (line 64), register the cron job (line 78), start the
scheduler (line 86), run the first collection synchronously (line 89), then
start serving HTTP (goroutine at line 101). The unnamed variant of main has
the same order. -/
inductive StartupStep where
  | loadConfig
  | registerCronJob
  | schedulerStart
  | firstCollection
  | httpServeStart
deriving DecidableEq, Repr

def mainStartupOrder : List StartupStep :=
  [.loadConfig, .registerCronJob, .schedulerStart, .firstCollection, .httpServeStart]

theorem ratTrunc_eq_floor_of_nonneg {q : ℚ} (h : 0 ≤ q) : ratTrunc q = ⌊q⌋ := by
  unfold ratTrunc
  rw [Int.tdiv_eq_ediv (Rat.num_nonneg.2 h) (Int.ofNat_nonneg q.den)]
  exact (Rat.floor_def).symm

theorem ratTrunc_neg (q : ℚ) : ratTrunc (-q) = -(ratTrunc q) := by
  unfold ratTrunc
  rw [Rat.num_neg_eq_neg_num, Rat.den_neg_eq_den, Int.neg_tdiv]

theorem ratTrunc_eq_ite (q : ℚ) : ratTrunc q = if 0 ≤ q then ⌊q⌋ else ⌈q⌉ := by
  by_cases h : 0 ≤ q
  · rw [if_pos h, ratTrunc_eq_floor_of_nonneg h]
  · rw [if_neg h]
    have hq : q ≤ 0 := le_of_not_le h
    have h1 : ratTrunc q = -(ratTrunc (-q)) := by rw [ratTrunc_neg, neg_neg]
    have h2 : ratTrunc (-q) = ⌊-q⌋ := ratTrunc_eq_floor_of_nonneg (neg_nonneg.2 hq)
    have h3 : ⌈q⌉ = -⌊-q⌋ := by rw [← Int.ceil_neg, neg_neg]
    rw [h1, h2, h3]

theorem ratTrunc_mono {q r : ℚ} (h : q ≤ r) : ratTrunc q ≤ ratTrunc r := by
  rw [ratTrunc_eq_ite, ratTrunc_eq_ite]
  by_cases hq : 0 ≤ q
  · rw [if_pos hq, if_pos (hq.trans h)]
    exact Int.floor_le_floor h
  · rw [if_neg hq]
    by_cases hr : 0 ≤ r
    · rw [if_pos hr]
      have h1 : ⌈q⌉ ≤ 0 := Int.ceil_le.2 (by exact_mod_cast le_of_not_le hq)
      have h2 : (0 : Int) ≤ ⌊r⌋ := Int.floor_nonneg.2 hr
      exact h1.trans h2
    · rw [if_neg hr]
      exact Int.ceil_le_ceil h

theorem ratTrunc_intCast_div_of_nonneg {a b : ℤ} (ha : 0 ≤ a) (hb : 0 < b) :
    ratTrunc ((a : ℚ) / (b : ℚ)) = a.tdiv b := by
  have hq : (0 : ℚ) ≤ (a : ℚ) / (b : ℚ) :=
    div_nonneg (by exact_mod_cast ha) (by exact_mod_cast hb.le)
  rw [ratTrunc_eq_floor_of_nonneg hq]
  have hbn : ((b.toNat : ℕ) : ℤ) = b := Int.toNat_of_nonneg hb.le
  have hbq : ((b.toNat : ℕ) : ℚ) = (b : ℚ) := by exact_mod_cast congrArg Int.cast hbn
  rw [← hbq, Rat.floor_intCast_div_natCast, hbn, Int.tdiv_eq_ediv ha hb.le]

theorem ratTrunc_intCast_div {a b : ℤ} (hb : 0 < b) :
    ratTrunc ((a : ℚ) / (b : ℚ)) = a.tdiv b := by
  rcases le_or_lt 0 a with ha | ha
  · exact ratTrunc_intCast_div_of_nonneg ha hb
  · have key := ratTrunc_intCast_div_of_nonneg (a := -a) (by omega) hb
    have hcast : ((-a : ℤ) : ℚ) / (b : ℚ) = -((a : ℚ) / (b : ℚ)) := by
      push_cast
      ring
    rw [hcast, ratTrunc_neg] at key
    have := congrArg Neg.neg key
    rw [neg_neg, Int.neg_tdiv, neg_neg] at this
    exact this

theorem nanosPerDay_pos : (0 : Int) < nanosPerDay := by decide

theorem DayAge_eq_tdiv (i : snapshotInfo) (now : Int) :
    i.DayAge now = (now - i.time).tdiv nanosPerDay := by
  unfold snapshotInfo.DayAge
  have hchain : ((now - i.time : Int) : ℚ) / (nanosPerHour : ℚ) / 24 =
      ((now - i.time : Int) : ℚ) / ((nanosPerDay : Int) : ℚ) := by
    rw [div_div]
    congr 1
    unfold nanosPerDay nanosPerHour
    push_cast
    ring
  rw [hchain, ratTrunc_intCast_div nanosPerDay_pos]

theorem DayAge_mono (i : snapshotInfo) {now1 now2 : Int} (h : now1 ≤ now2) :
    i.DayAge now1 ≤ i.DayAge now2 := by
  unfold snapshotInfo.DayAge
  apply ratTrunc_mono
  have hstep : ((now1 - i.time : Int) : ℚ) ≤ ((now2 - i.time : Int) : ℚ) := by
    exact_mod_cast sub_le_sub_right h i.time
  have hH : (0 : ℚ) < (nanosPerHour : ℚ) := by
    unfold nanosPerHour
    push_cast
    norm_num
  have h24 : (0 : ℚ) < (24 : ℚ) := by norm_num
  exact div_le_div_of_nonneg_right (div_le_div_of_nonneg_right hstep hH.le) h24.le


theorem scFind_scStore_self (c : SnapshotCollection) (k : String) (v : snapshotInfo) :
    scFind (scStore c k v) k = some v := by
  induction c with
  | nil => simp [scStore, scFind]
  | cons hd tl ih =>
    obtain ⟨k', w⟩ := hd
    by_cases h : k' = k
    · simp [scStore, scFind, h]
    · simp [scStore, scFind, h, ih]

theorem scFind_scStore_ne (c : SnapshotCollection) (k k' : String) (v : snapshotInfo)
    (h : k' ≠ k) : scFind (scStore c k v) k' = scFind c k' := by
  have hkk : ¬(k = k') := fun hh => h hh.symm
  induction c with
  | nil => simp [scStore, scFind, hkk]
  | cons hd tl ih =>
    obtain ⟨k0, w⟩ := hd
    by_cases h0 : k0 = k
    · subst h0
      simp [scStore, scFind, hkk]
    · simp [scStore, scFind, h0, ih]

theorem scStore_length_of_find_none (c : SnapshotCollection) (k : String)
    (v : snapshotInfo) (h : scFind c k = none) :
    (scStore c k v).length = c.length + 1 := by
  induction c with
  | nil => simp [scStore]
  | cons hd tl ih =>
    obtain ⟨k0, w⟩ := hd
    by_cases h0 : k0 = k
    · simp [scFind, h0] at h
    · simp only [scFind, if_neg h0] at h
      simp [scStore, if_neg h0, ih h]

theorem scStore_length_of_find_some (c : SnapshotCollection) (k : String)
    (v w : snapshotInfo) (h : scFind c k = some w) :
    (scStore c k v).length = c.length := by
  induction c with
  | nil => simp [scFind] at h
  | cons hd tl ih =>
    obtain ⟨k0, w0⟩ := hd
    by_cases h0 : k0 = k
    · simp [scStore, h0]
    · simp only [scFind, if_neg h0] at h
      simp [scStore, if_neg h0, ih h]

theorem Add_find_same (c : SnapshotCollection) (u h : String) (t : Int) :
    scFind (SnapshotCollection.Add c u h t) (addKey h (normUser u)) =
      some (updInfo
        (match scFind c (addKey h (normUser u)) with
         | none => { host := h, username := normUser u, time := 0, count := 0 }
         | some v => v) t) := by
  simp only [SnapshotCollection.Add, updInfo]
  exact scFind_scStore_self ..

theorem Add_of_find_none (c : SnapshotCollection) (u h : String) (t : Int)
    (hn : scFind c (addKey h (normUser u)) = none) :
    SnapshotCollection.Add c u h t =
      scStore c (addKey h (normUser u))
        (updInfo { host := h, username := normUser u, time := 0, count := 0 } t) := by
  simp only [SnapshotCollection.Add]
  rw [hn]
  rfl

theorem addAll_find (u h : String) (ts : List Int) (c : SnapshotCollection)
    (v : snapshotInfo) (hv : scFind c (addKey h (normUser u)) = some v) :
    scFind (addAll u h ts c) (addKey h (normUser u)) = some (ts.foldl updInfo v) := by
  induction ts generalizing c v with
  | nil => simpa [addAll] using hv
  | cons t rest ih =>
    have step := Add_find_same c u h t
    rw [hv] at step
    have := ih (SnapshotCollection.Add c u h t) (updInfo v t) step
    simpa [addAll, List.foldl] using this

theorem foldl_updInfo_count (v : snapshotInfo) (ts : List Int) :
    (ts.foldl updInfo v).count = v.count + ts.length := by
  induction ts generalizing v with
  | nil => simp
  | cons t rest ih => simp [List.foldl, ih, updInfo]; omega

theorem foldl_updInfo_host (v : snapshotInfo) (ts : List Int) :
    (ts.foldl updInfo v).host = v.host ∧ (ts.foldl updInfo v).username = v.username := by
  induction ts generalizing v with
  | nil => simp
  | cons t rest ih => simpa [List.foldl, updInfo] using ih (updInfo v t)

theorem ite_lt_eq_max (a t : Int) : (if a < t then t else a) = max a t := by
  rcases lt_or_le a t with h | h
  · simp [h, max_eq_right h.le]
  · simp [not_lt.2 h, max_eq_left h]

theorem foldl_updInfo_time (v : snapshotInfo) (ts : List Int) :
    (ts.foldl updInfo v).time = ts.foldl max v.time := by
  induction ts generalizing v with
  | nil => simp
  | cons t rest ih =>
    simp only [List.foldl]
    rw [ih (updInfo v t)]
    simp [updInfo, ite_lt_eq_max]

theorem foldl_max_max (ts : List Int) (a b : Int) :
    ts.foldl max (max a b) = max a (ts.foldl max b) := by
  induction ts generalizing b with
  | nil => simp
  | cons t rest ih => simp only [List.foldl]; rw [max_assoc, ih]


theorem countErrors_cons (r : repoStats) (rs : List repoStats) :
    countErrors (r :: rs) = (if r.readErrors > 0 then 1 else 0) + countErrors rs := by
  by_cases h : r.readErrors > 0
  · simp [countErrors, List.filter_cons, h]
    omega
  · simp [countErrors, List.filter_cons, h]

theorem gatherLoop_complete (started : Nat) :
    ∀ (arr acc : List repoStats) (errs : Nat),
      acc.length + arr.length = started → arr ≠ [] →
      gatherLoop started arr acc errs = some (acc ++ arr, errs + countErrors arr) := by
  intro arr
  induction arr with
  | nil => intro acc errs _ hne; exact absurd rfl hne
  | cons r rest ih =>
    intro acc errs hlen _
    by_cases hrest : rest = []
    · subst hrest
      have hl : (acc ++ [r]).length = started := by
        simp only [List.length_append, List.length_cons, List.length_nil] at hlen ⊢
        omega
      simp only [gatherLoop]
      rw [if_pos hl]
      have harith : (if r.readErrors > 0 then errs + 1 else errs) =
          errs + countErrors [r] := by
        rw [countErrors_cons]
        by_cases h : r.readErrors > 0
        · rw [if_pos h, if_pos h]
          simp [countErrors]
        · rw [if_neg h, if_neg h]
          simp [countErrors]
      rw [harith]
    · have hne : (acc ++ [r]).length ≠ started := by
        have hpos : 0 < rest.length := List.length_pos.2 hrest
        simp at hlen ⊢
        omega
      have hlen' : (acc ++ [r]).length + rest.length = started := by
        simp at hlen ⊢
        omega
      simp only [gatherLoop]
      rw [if_neg hne, ih (acc ++ [r]) _ hlen' hrest, List.append_assoc,
        List.singleton_append]
      have harith : (if r.readErrors > 0 then errs + 1 else errs) + countErrors rest =
          errs + countErrors (r :: rest) := by
        rw [countErrors_cons]
        by_cases h : r.readErrors > 0
        · rw [if_pos h, if_pos h]
          omega
        · rw [if_neg h, if_neg h]
          omega
      rw [harith]


/-- C7: DayAge(set, now) equals hours(now − mostRecentTimestamp) divided by
24 and truncated toward zero — equivalently, the toward-zero division of the
nanosecond difference by one day of nanoseconds; DayAge(t, t) = 0;
DayAge(t, t + 25h) = 1; and for a fixed mostRecentTimestamp DayAge is
monotonically non-decreasing as now advances. -/
theorem c7_dayAge_trunc_div :
    (∀ (i : snapshotInfo) (now : Int),
        i.DayAge now = (now - i.time).tdiv nanosPerDay) ∧
    (∀ (h u : String) (t : Int) (c : Nat),
        (snapshotInfo.mk h u t c).DayAge t = 0) ∧
    (∀ (h u : String) (t : Int) (c : Nat),
        (snapshotInfo.mk h u t c).DayAge (t + 25 * nanosPerHour) = 1) ∧
    (∀ (i : snapshotInfo) (now1 now2 : Int), now1 ≤ now2 →
        i.DayAge now1 ≤ i.DayAge now2) := by
  refine ⟨DayAge_eq_tdiv, ?_, ?_, fun i n1 n2 h => DayAge_mono i h⟩
  · intro h u t c
    rw [DayAge_eq_tdiv]
    simp [Int.zero_tdiv]
  · intro h u t c
    rw [DayAge_eq_tdiv]
    have harg : t + 25 * nanosPerHour - t = 25 * nanosPerHour := by ring
    simp only [harg]
    decide

theorem c7_dayAge_trunc_div_witness :
    (snapshotInfo.mk "h" "u" 0 0).DayAge 0 = 0 ∧
    (0 : Int) ≤ 25 * nanosPerHour ∧
    (snapshotInfo.mk "h" "u" 0 0).DayAge 0 ≤
      (snapshotInfo.mk "h" "u" 0 0).DayAge (25 * nanosPerHour) :=
  ⟨c7_dayAge_trunc_div.2.1 "h" "u" 0 0, by decide,
   c7_dayAge_trunc_div.2.2.2 (snapshotInfo.mk "h" "u" 0 0) 0 (25 * nanosPerHour)
     (by decide)⟩

/-- C3 counterexample: a single Add call whose timestamp is strictly before
the Go zero-value time (here −1, one nanosecond before 0001-01-01, a valid
`time.Time`): the resulting record's mostRecentTimestamp is the zero-value
time 0, not the maximum call timestamp −1, because the record's time starts
at the zero value and is only ever raised. -/
theorem c3_counterexample :
    (scFind (SnapshotCollection.Add [] "u" "h" (-1))
        (addKey "h" (normUser "u"))).map snapshotInfo.time = some 0 ∧
    (0 : Int) ≠ -1 := by
  exact ⟨rfl, by decide⟩

/-- C3 (amended): for any nonempty sequence of Add calls sharing one
(host, owner) pair, the resulting record's snapshotCount equals the number
of calls, and its mostRecentTimestamp equals the maximum of the Go
zero-value time and the maximum call timestamp; whenever that maximum
timestamp is not before the zero-value time (as for every real snapshot) it
equals the maximum call timestamp exactly. -/
theorem c3_add_aggregates (u h : String) (t : Int) (ts : List Int) :
    scFind (addAll u h (t :: ts) []) (addKey h (normUser u)) =
      some { host := h, username := normUser u,
             time := max 0 (ts.foldl max t), count := ts.length + 1 } ∧
    (0 ≤ ts.foldl max t →
      scFind (addAll u h (t :: ts) []) (addKey h (normUser u)) =
        some { host := h, username := normUser u,
               time := ts.foldl max t, count := ts.length + 1 }) := by
  have hbase : scFind (SnapshotCollection.Add [] u h t) (addKey h (normUser u)) =
      some (updInfo { host := h, username := normUser u, time := 0, count := 0 } t) :=
    Add_find_same [] u h t
  have hfold : scFind (addAll u h (t :: ts) []) (addKey h (normUser u)) =
      some (ts.foldl updInfo
        (updInfo { host := h, username := normUser u, time := 0, count := 0 } t)) :=
    addAll_find u h ts (SnapshotCollection.Add [] u h t) _ hbase
  have hrec : ts.foldl updInfo
      (updInfo { host := h, username := normUser u, time := 0, count := 0 } t) =
      { host := h, username := normUser u,
        time := max 0 (ts.foldl max t), count := ts.length + 1 } := by
    set base := updInfo { host := h, username := normUser u, time := 0, count := 0 } t
      with hbasedef
    obtain ⟨hh, hu⟩ := foldl_updInfo_host base ts
    have hc := foldl_updInfo_count base ts
    have ht := foldl_updInfo_time base ts
    have hbt : base.time = max 0 t := by
      rw [hbasedef]
      simp only [updInfo]
      exact ite_lt_eq_max 0 t
    have hbc : base.count = 1 := rfl
    have htime : (ts.foldl updInfo base).time = max 0 (ts.foldl max t) := by
      rw [ht, hbt, foldl_max_max]
    have hcount : (ts.foldl updInfo base).count = ts.length + 1 := by
      rw [hc, hbc]
      omega
    have hhost : (ts.foldl updInfo base).host = h := by rw [hh, hbasedef]; rfl
    have huser : (ts.foldl updInfo base).username = normUser u := by
      rw [hu, hbasedef]
      rfl
    calc ts.foldl updInfo base
        = { host := (ts.foldl updInfo base).host,
            username := (ts.foldl updInfo base).username,
            time := (ts.foldl updInfo base).time,
            count := (ts.foldl updInfo base).count } := rfl
      _ = { host := h, username := normUser u,
            time := max 0 (ts.foldl max t), count := ts.length + 1 } := by
          rw [hhost, huser, htime, hcount]
  refine ⟨by rw [hfold, hrec], fun hnn => ?_⟩
  rw [hfold, hrec, max_eq_right hnn]

theorem c3_add_aggregates_witness :
    (0 : Int) ≤ ([] : List Int).foldl max 5 ∧
    scFind (addAll "u" "h" (5 :: []) []) (addKey "h" (normUser "u")) =
      some { host := "h", username := normUser "u",
             time := ([] : List Int).foldl max 5,
             count := ([] : List Int).length + 1 } :=
  ⟨by decide, (c3_add_aggregates "u" "h" 5 []).2 (by decide)⟩

/-- C4 counterexample: the Add calls (host "a", owner "b-c") and
(host "a-b", owner "c") have different (host, owner) pairs, yet both build
the joined key "a-b-c", so the two calls merge into one record: the
collection holds a single record whose count is 2. -/
theorem c4_counterexample :
    (("a", "b-c") ≠ ("a-b", "c")) ∧
    (SnapshotCollection.Add (SnapshotCollection.Add [] "b-c" "a" 5) "c" "a-b" 7).length
      = 1 ∧
    (scFind (SnapshotCollection.Add (SnapshotCollection.Add [] "b-c" "a" 5) "c" "a-b" 7)
        (addKey "a" "b-c")).map snapshotInfo.count = some 2 := by
  exact ⟨by decide, rfl, rfl⟩

/-- C4 (amended): Add keys records by the joined string
hostname ++ "-" ++ owner, after normalizing an empty owner to the sentinel:
two Add calls update distinct records whenever their joined keys differ;
distinct (host, owner) pairs whose joined keys coincide (such as
("a", "b-c") and ("a-b", "c")) update one shared record instead. -/
theorem c4_distinct_keys (u1 h1 u2 h2 : String) (t1 t2 : Int)
    (hk : addKey h1 (normUser u1) ≠ addKey h2 (normUser u2)) :
    (SnapshotCollection.Add (SnapshotCollection.Add [] u1 h1 t1) u2 h2 t2).length = 2 ∧
    (scFind (SnapshotCollection.Add (SnapshotCollection.Add [] u1 h1 t1) u2 h2 t2)
        (addKey h1 (normUser u1))).map snapshotInfo.count = some 1 ∧
    (scFind (SnapshotCollection.Add (SnapshotCollection.Add [] u1 h1 t1) u2 h2 t2)
        (addKey h2 (normUser u2))).map snapshotInfo.count = some 1 := by
  have hc1 : SnapshotCollection.Add [] u1 h1 t1 =
      [(addKey h1 (normUser u1),
        updInfo { host := h1, username := normUser u1, time := 0, count := 0 } t1)] :=
    rfl
  have hfind : scFind (SnapshotCollection.Add [] u1 h1 t1)
      (addKey h2 (normUser u2)) = none := by
    rw [hc1]
    simp only [scFind]
    rw [if_neg hk]
  have hc2 : SnapshotCollection.Add (SnapshotCollection.Add [] u1 h1 t1) u2 h2 t2 =
      [(addKey h1 (normUser u1),
          updInfo { host := h1, username := normUser u1, time := 0, count := 0 } t1),
       (addKey h2 (normUser u2),
          updInfo { host := h2, username := normUser u2, time := 0, count := 0 } t2)] := by
    have hstep := Add_of_find_none (SnapshotCollection.Add [] u1 h1 t1) u2 h2 t2 hfind
    rw [hstep, hc1]
    simp only [scStore]
    rw [if_neg hk]
  refine ⟨by rw [hc2]; rfl, ?_, ?_⟩
  · rw [hc2]
    simp [scFind, updInfo]
  · rw [hc2]
    simp [scFind, hk, updInfo]

theorem c4_distinct_keys_witness :
    addKey "a" (normUser "x") ≠ addKey "b" (normUser "y") ∧
    (SnapshotCollection.Add (SnapshotCollection.Add [] "x" "a" 1) "y" "b" 2).length = 2 :=
  ⟨by decide, (c4_distinct_keys "x" "a" "y" "b" 1 2 (by decide)).1⟩

/-- C1 counterexample: with a fully successful open and enumeration, the
task's trace is [send result, unlock, wait-done]: the Unlock comes strictly
after the task has reported its result on the done channel, not before it,
refuting the claimed release-before-report ordering (the release is a
deferred call, which runs only as the function returns, after the send). -/
theorem c1_counterexample :
    (openResticBackend
        ⟨false, false, false, false, false, false, false, false, false⟩).isSome = true ∧
    gatherOne "r"
        ⟨⟨false, false, false, false, false, false, false, false, false⟩, [], false⟩ =
      [.sendResult ⟨"r", 0, []⟩, .unlockRepo, .waitDone] ∧
    ¬ ((gatherOne "r"
          ⟨⟨false, false, false, false, false, false, false, false, false⟩, [],
            false⟩).indexOf TaskEvent.unlockRepo <
        (gatherOne "r"
          ⟨⟨false, false, false, false, false, false, false, false, false⟩, [],
            false⟩).indexOf (TaskEvent.sendResult ⟨"r", 0, []⟩)) := by
  exact ⟨rfl, rfl, by decide⟩

/-- C1 (amended): whenever openResticBackend returns without error, the task
invokes Unlock exactly once — after sending its result on the done channel
and before signalling the shutdown-drain WaitGroup — on both the normal
completion path and the mid-enumeration-failure path; a task whose open
returned an error never invokes Unlock. -/
theorem c1_unlock_exactly_once (name : String) (b : TaskBehavior) :
    ((openResticBackend b.env).isSome →
      gatherOne name b = [.sendResult (sentResult name b), .unlockRepo, .waitDone] ∧
      countUnlock (gatherOne name b) = 1) ∧
    (openResticBackend b.env = none →
      gatherOne name b = [.sendResult (sentResult name b), .waitDone] ∧
      countUnlock (gatherOne name b) = 0) := by
  constructor
  · intro hsome
    cases hopen : openResticBackend b.env with
    | none => rw [hopen] at hsome; simp at hsome
    | some lk =>
      cases hcol : collectionFromAllSnapshots b.snaps b.readFails with
      | none =>
        constructor
        · simp [gatherOne, sentResult, hopen, hcol]
        · simp [gatherOne, hopen, hcol, countUnlock, List.filter, isUnlock]
      | some col =>
        constructor
        · simp [gatherOne, sentResult, hopen, hcol]
        · simp [gatherOne, hopen, hcol, countUnlock, List.filter, isUnlock]
  · intro hnone
    constructor
    · simp [gatherOne, sentResult, hnone]
    · simp [gatherOne, hnone, countUnlock, List.filter, isUnlock]

theorem c1_unlock_exactly_once_witness :
    (openResticBackend
        ⟨false, false, false, false, false, false, false, false, false⟩).isSome = true ∧
    countUnlock (gatherOne "r"
        ⟨⟨false, false, false, false, false, false, false, false, false⟩, [],
          false⟩) = 1 :=
  ⟨rfl,
   ((c1_unlock_exactly_once "r"
      ⟨⟨false, false, false, false, false, false, false, false, false⟩, [],
        false⟩).1 (by decide)).2⟩

/-- C2: a failed open or a failed enumeration yields exactly the result
{readErrorCount = 1, no BackupSets}; any result with a nonzero error flag
carries an empty BackupSet set; and error results never abort the run — the
fan-in completes with every sibling result included, errors counted as
data. -/
theorem c2_failure_isolated :
    (∀ (name : String) (b : TaskBehavior),
        openResticBackend b.env = none ∨ b.readFails = true →
        sentResult name b = ⟨name, 1, []⟩) ∧
    (∀ (name : String) (b : TaskBehavior),
        0 < (sentResult name b).readErrors → (sentResult name b).stats = []) ∧
    (∀ (s : CollectorState) (cfg : ConfigFile) (arrivals : List repoStats) (now : Int),
        s.locked = false → s.config = some cfg →
        arrivals.length = (enabledEntries cfg).length → arrivals ≠ [] →
        GatherMetrics s arrivals now =
          ⟨.completed { s with
                        metrics := some ⟨now, countErrors arrivals, arrivals⟩,
                        locked := false }, 1, 1⟩) := by
  refine ⟨?_, ?_, ?_⟩
  · intro name b hfail
    rcases hfail with hopen | hread
    · simp [sentResult, hopen]
    · cases hopen : openResticBackend b.env with
      | none => simp [sentResult, hopen]
      | some lk => simp [sentResult, hopen, collectionFromAllSnapshots, hread]
  · intro name b hpos
    cases hopen : openResticBackend b.env with
    | none => simp [sentResult, hopen]
    | some lk =>
      cases hcol : collectionFromAllSnapshots b.snaps b.readFails with
      | none => simp [sentResult, hopen, hcol]
      | some col =>
        simp [sentResult, hopen, hcol] at hpos
  · intro s cfg arrivals now hlock hcfg hlen hne
    have hloop := gatherLoop_complete (enabledEntries cfg).length arrivals [] 0
      (by simpa using hlen) hne
    simp [GatherMetrics, hlock, hcfg, hloop]

theorem c2_failure_isolated_witness :
    sentResult "r"
        ⟨⟨true, false, false, false, false, false, false, false, false⟩, [],
          false⟩ = ⟨"r", 1, []⟩ ∧
    GatherMetrics ⟨some [⟨false, "r", "p", "", "", "", ""⟩], none, false⟩
        [⟨"r", 1, []⟩] 3 =
      ⟨.completed ⟨some [⟨false, "r", "p", "", "", "", ""⟩],
          some ⟨3, 1, [⟨"r", 1, []⟩]⟩, false⟩, 1, 1⟩ := by
  constructor
  · exact c2_failure_isolated.1 "r"
      ⟨⟨true, false, false, false, false, false, false, false, false⟩, [], false⟩
      (Or.inl rfl)
  · have := c2_failure_isolated.2.2
      ⟨some [⟨false, "r", "p", "", "", "", ""⟩], none, false⟩
      [⟨false, "r", "p", "", "", "", ""⟩] [⟨"r", 1, []⟩] 3 rfl rfl (by decide)
      (by decide)
    simpa [countErrors] using this

/-- C5: any trigger attempt that finds the run lock held returns busy
immediately — zero config loads, zero publishes, dropped and not queued —
so two back-to-back attempts while a collection is in progress change
nothing, and the one in-progress run (started from the unlocked state)
performs exactly one publish when it completes. -/
theorem c5_busy_attempts_dropped :
    (∀ (s : CollectorState) (arrivals : List repoStats) (now : Int),
        s.locked = true → GatherMetrics s arrivals now = ⟨.busy, 0, 0⟩) ∧
    (∀ (s : CollectorState) (cfg : ConfigFile) (arrivals : List repoStats) (now : Int),
        s.locked = false → s.config = some cfg →
        arrivals.length = (enabledEntries cfg).length → arrivals ≠ [] →
        (GatherMetrics s arrivals now).publishes = 1) := by
  constructor
  · intro s arrivals now hlock
    simp [GatherMetrics, hlock]
  · intro s cfg arrivals now hlock hcfg hlen hne
    have hloop := gatherLoop_complete (enabledEntries cfg).length arrivals [] 0
      (by simpa using hlen) hne
    simp [GatherMetrics, hlock, hcfg, hloop]

theorem c5_busy_attempts_dropped_witness :
    GatherMetrics ⟨some [], none, true⟩ [] 0 = ⟨.busy, 0, 0⟩ ∧
    (GatherMetrics ⟨some [⟨false, "r", "p", "", "", "", ""⟩], none, false⟩
        [⟨"r", 0, []⟩] 0).publishes = 1 :=
  ⟨c5_busy_attempts_dropped.1 ⟨some [], none, true⟩ [] 0 rfl,
   c5_busy_attempts_dropped.2 ⟨some [⟨false, "r", "p", "", "", "", ""⟩], none, false⟩
     [⟨false, "r", "p", "", "", "", ""⟩] [⟨"r", 0, []⟩] 0 rfl rfl (by decide)
     (by decide)⟩

/-- C9: GatherMetrics terminates and publishes only when the captured
config snapshot has at least one enabled entry. With zero enabled entries
no task ever sends a result, the receive loop blocks forever before its
count check, nothing is published, the run mutex stays held, and every
later trigger is rejected as busy; with at least one enabled entry (and one
arrival per started task) the run completes and publishes exactly once. -/
theorem c9_zero_enabled_blocks :
    (∀ (s : CollectorState) (cfg : ConfigFile) (arrivals : List repoStats) (now : Int),
        s.locked = false → s.config = some cfg →
        arrivals.length = (enabledEntries cfg).length →
        (enabledEntries cfg).length = 0 →
        GatherMetrics s arrivals now =
          ⟨.blockedForever { s with locked := true }, 0, 1⟩) ∧
    (∀ (s : CollectorState) (arrivals : List repoStats) (now : Int),
        GatherMetrics { s with locked := true } arrivals now = ⟨.busy, 0, 0⟩) ∧
    (∀ (s : CollectorState) (cfg : ConfigFile) (arrivals : List repoStats) (now : Int),
        s.locked = false → s.config = some cfg →
        arrivals.length = (enabledEntries cfg).length →
        0 < (enabledEntries cfg).length →
        (GatherMetrics s arrivals now).result =
          .completed { s with
                       metrics := some ⟨now, countErrors arrivals, arrivals⟩,
                       locked := false } ∧
        (GatherMetrics s arrivals now).publishes = 1) := by
  refine ⟨?_, ?_, ?_⟩
  · intro s cfg arrivals now hlock hcfg hlen hzero
    have harr : arrivals = [] := List.length_eq_zero.1 (hlen.trans hzero)
    subst harr
    simp [GatherMetrics, hlock, hcfg, gatherLoop]
  · intro s arrivals now
    simp [GatherMetrics]
  · intro s cfg arrivals now hlock hcfg hlen hpos
    have hne : arrivals ≠ [] := by
      intro hnil
      rw [hnil] at hlen
      simp at hlen
      omega
    have hloop := gatherLoop_complete (enabledEntries cfg).length arrivals [] 0
      (by simpa using hlen) hne
    constructor
    · simp [GatherMetrics, hlock, hcfg, hloop]
    · simp [GatherMetrics, hlock, hcfg, hloop]

theorem c9_zero_enabled_blocks_witness :
    GatherMetrics ⟨some [⟨true, "r", "p", "", "", "", ""⟩], none, false⟩ [] 0 =
      ⟨.blockedForever ⟨some [⟨true, "r", "p", "", "", "", ""⟩], none, true⟩, 0, 1⟩ ∧
    GatherMetrics ⟨some [⟨true, "r", "p", "", "", "", ""⟩], none, true⟩ [] 1 =
      ⟨.busy, 0, 0⟩ := by
  constructor
  · exact c9_zero_enabled_blocks.1
      ⟨some [⟨true, "r", "p", "", "", "", ""⟩], none, false⟩
      [⟨true, "r", "p", "", "", "", ""⟩] [] 0 rfl rfl (by decide) (by decide)
  · exact c9_zero_enabled_blocks.2.1
      ⟨some [⟨true, "r", "p", "", "", "", ""⟩], none, false⟩ [] 1

/-- C10: Collect dereferences the published-run pointer unconditionally:
before any run was ever published (as right after NewResticCollector) the
pointer is nil and the read crashes; once some run is published the read is
safe, mutates nothing (the state is returned unchanged), and every sample
of the scrape derives from the single run value loaded once. -/
theorem c10_collect_unconditional_load :
    NewResticCollector.metrics = none ∧
    (∀ (s : CollectorState) (now : Int), s.metrics = none → Collect s now = none) ∧
    (∀ (s : CollectorState) (m : allRepoMetrics) (now : Int), s.metrics = some m →
        Collect s now = some (s, collectSamples m now)) := by
  refine ⟨rfl, ?_, ?_⟩
  · intro s now h
    simp [Collect, h]
  · intro s m now h
    simp [Collect, h]

theorem c10_collect_unconditional_load_witness :
    Collect NewResticCollector 0 = none ∧
    Collect ⟨none, some ⟨0, 0, []⟩, false⟩ 0 =
      some (⟨none, some ⟨0, 0, []⟩, false⟩, collectSamples ⟨0, 0, []⟩ 0) :=
  ⟨c10_collect_unconditional_load.2.1 NewResticCollector 0 rfl,
   c10_collect_unconditional_load.2.2 ⟨none, some ⟨0, 0, []⟩, false⟩ ⟨0, 0, []⟩ 0 rfl⟩

/-- C8: when the configuration load fails (file open, JSON decode, or
secret resolution), ReloadConfig returns the error and stores nothing: the
previously stored repository list is unchanged and later GatherMetrics
calls behave exactly as before the failed reload. -/
theorem c8_failed_reload_retains_config (s : CollectorState) (env : LoadEnv)
    (hasSecretsClient : Bool)
    (h : NewConfigFileFromFile env hasSecretsClient = none) :
    ReloadConfig s env hasSecretsClient = (s, true) ∧
    (ReloadConfig s env hasSecretsClient).1.config = s.config ∧
    (∀ (arrivals : List repoStats) (now : Int),
      GatherMetrics (ReloadConfig s env hasSecretsClient).1 arrivals now =
        GatherMetrics s arrivals now) := by
  have hr : ReloadConfig s env hasSecretsClient = (s, true) := by
    simp [ReloadConfig, h]
  exact ⟨hr, by rw [hr], fun arrivals now => by rw [hr]⟩

theorem c8_failed_reload_retains_config_witness :
    NewConfigFileFromFile
        ⟨true, none, fun _ => none, fun _ => none⟩ false = none ∧
    ReloadConfig ⟨some [⟨false, "r", "p", "", "", "", ""⟩], none, false⟩
        ⟨true, none, fun _ => none, fun _ => none⟩ false =
      (⟨some [⟨false, "r", "p", "", "", "", ""⟩], none, false⟩, true) :=
  ⟨rfl,
   (c8_failed_reload_retains_config
      ⟨some [⟨false, "r", "p", "", "", "", ""⟩], none, false⟩
      ⟨true, none, fun _ => none, fun _ => none⟩ false rfl).1⟩

/-- C6 counterexample: in main's startup order the scheduler is started
(position 2) strictly before the first synchronous collection (position 3),
so the first collection does not precede the scheduler start as claimed. -/
theorem c6_counterexample :
    mainStartupOrder.indexOf StartupStep.schedulerStart <
      mainStartupOrder.indexOf StartupStep.firstCollection ∧
    ¬ (mainStartupOrder.indexOf StartupStep.firstCollection <
        mainStartupOrder.indexOf StartupStep.schedulerStart) := by
  decide

/-- C6 (amended): at process start the configuration is loaded and then the
very first collection runs synchronously before the HTTP exposition
transport begins serving, so the exposition starts only after that startup
collection call completes; the scheduler, however, is started immediately
before the first collection, not after it. -/
theorem c6_first_collection_before_serving :
    mainStartupOrder.indexOf StartupStep.loadConfig <
      mainStartupOrder.indexOf StartupStep.firstCollection ∧
    mainStartupOrder.indexOf StartupStep.firstCollection <
      mainStartupOrder.indexOf StartupStep.httpServeStart ∧
    mainStartupOrder.indexOf StartupStep.schedulerStart <
      mainStartupOrder.indexOf StartupStep.firstCollection := by
  decide

end ResticReporter
